import Mathlib

/-
Shallow embedding of the rolling battery-capacity forecast engine in
`backend/app/ml_forecast.py` (load_feat_df, _load_cfg_and_artifacts,
_build_vehicle_slice, _forecast_seq2seq_gpr, _get_or_train_static,
_predict_static_curve, run_forecast).

Modelling conventions:
- pandas/numpy floats become `ℚ`; a NaN / missing value becomes `Option.none`;
- the fitted models (keras seq2seq, residual GPR, static SVR/GPR) are opaque
  artifacts, embedded as function parameters of the environment;
- file presence is embedded as `Option` fields of an `Env` record; the Python
  exceptions become the error taxonomy `Err`;
- artifact "touch/load" actions are recorded in an event trace (`Ev`) so that
  ordering of loads relative to failures can be stated.
-/

/-- Error taxonomy of the forecast core (spec section 7): each constructor
stands for the exception the Python code raises in that situation. -/
inductive Err where
  | notFound
  | schemaMismatch
  | vehicleNotFound
  | insufficientHistory
  | unknownModel
deriving DecidableEq

/-- Raw CSV cell, before numeric coercion: a parsed number, a non-numeric
string, or an already-missing value. -/
inductive Cell where
  | num (q : ℚ)
  | str (s : String)
  | missing
deriving DecidableEq

/-- True when the cell is not a (non-numeric) string, i.e. it survives
`pd.to_numeric(errors="coerce")` unchanged. -/
def Cell.isNumericB : Cell → Bool
  | .str _ => false
  | _ => true

/-- `pd.to_numeric(errors="coerce")` on one cell: numbers stay, invalid
strings become missing, missing stays missing. -/
def coerceCell : Cell → Cell
  | .num q => .num q
  | .str _ => .missing
  | .missing => .missing

/-- One raw row of the feature CSV.  `vehicle`, `Month` and `month_ts` are the
identifier / time columns the code excludes from numeric coercion (`non_num`
in `load_feat_df`); every other column is in `cells`. -/
structure RawRow where
  vehicle : ℤ
  month_ts : ℤ
  MonthCell : Cell
  cells : List Cell
deriving DecidableEq

/-- Sort / duplicate key of a raw row: the `(vehicle, month_ts)` pair. -/
def rawKey (r : RawRow) : ℤ × ℤ := (r.vehicle, r.month_ts)

/-- Lexicographic order on `(vehicle, month_ts)` used by
`df.sort_values(["vehicle", "month_ts"])`. -/
def keyLe (a b : RawRow) : Prop :=
  a.vehicle < b.vehicle ∨ (a.vehicle = b.vehicle ∧ a.month_ts ≤ b.month_ts)

instance : DecidableRel keyLe := fun a b => by unfold keyLe; infer_instance

instance : IsTotal RawRow keyLe := ⟨by intro a b; unfold keyLe; omega⟩

instance : IsTrans RawRow keyLe := ⟨by intro a b c hab hbc; unfold keyLe at *; omega⟩

/-- Numeric coercion of one row: every cell outside the identifier / time
columns goes through `coerceCell`; `vehicle`, `Month`, `month_ts` are left
untouched. -/
def coerceRow (r : RawRow) : RawRow :=
  { r with cells := r.cells.map coerceCell }

/-- `df.drop_duplicates(["vehicle", "month_ts"])`: scan in order, keep a row
iff its key has not been seen before (pandas `keep="first"`). -/
def drop_duplicates (seen : List (ℤ × ℤ)) : List RawRow → List RawRow
  | [] => []
  | r :: rs =>
    if rawKey r ∈ seen then drop_duplicates seen rs
    else r :: drop_duplicates (rawKey r :: seen) rs

/-- `load_feat_df`: `none` models an absent backing CSV (the code raises
`FileNotFoundError`); otherwise coerce every non-identifier column to
numeric, sort by `(vehicle, month_ts)` and drop duplicate keys keeping the
first occurrence. -/
def load_feat_df (csv : Option (List RawRow)) : Except Err (List RawRow) :=
  match csv with
  | none => .error .notFound
  | some rows => .ok (drop_duplicates [] (List.insertionSort keyLe (rows.map coerceRow)))

/-
Scalers.  Modelled from the spec: the three fitted scalers (`ca_scaler.pkl`,
`f_scaler.pkl`, `x2_scaler.pkl`) are serialized sklearn artifacts whose code
is not under `src/`; per spec sections 3 and 8 they are independently fit
standard (affine) scalers with per-feature center and non-zero scale, with
`transform v = (v - mean) / scale` and `inverse_transform v = v * scale + mean`.
-/

/-- Single-column affine scaler (capacity space, `ca_sc`). -/
structure Scaler where
  mean : ℚ
  scale : ℚ
deriving DecidableEq

/-- Scaler application, `(v - mean) / scale`. -/
def Scaler.transform (s : Scaler) (v : ℚ) : ℚ := (v - s.mean) / s.scale

/-- Scaler inversion, `v * scale + mean`. -/
def Scaler.inverse_transform (s : Scaler) (v : ℚ) : ℚ := v * s.scale + s.mean

/-- Multi-column affine scaler (feature space `f_sc`, exogenous space
`x2_sc`, static baseline `xsc`): per-column center and scale. -/
structure VecScaler where
  mean : List ℚ
  scale : List ℚ
deriving DecidableEq

/-- Columnwise `(v - mean) / scale` over one row. -/
def affTrans : List ℚ → List ℚ → List ℚ → List ℚ
  | v :: vs, m :: ms, s :: ss => (v - m) / s :: affTrans vs ms ss
  | _, _, _ => []

/-- Columnwise `v * scale + mean` over one row. -/
def affInv : List ℚ → List ℚ → List ℚ → List ℚ
  | v :: vs, m :: ms, s :: ss => (v * s + m) :: affInv vs ms ss
  | _, _, _ => []

/-- Row transform of a multi-column scaler. -/
def VecScaler.transform (s : VecScaler) (v : List ℚ) : List ℚ :=
  affTrans v s.mean s.scale

/-- Row inverse transform of a multi-column scaler. -/
def VecScaler.inverse_transform (s : VecScaler) (v : List ℚ) : List ℚ :=
  affInv v s.mean s.scale

/-
Typed (cleaned) feature table as consumed by the forecasters: the output of
`load_feat_df` seen through the columns the forecast code actually reads.
`Ca` is `Option ℚ` because capacity can be missing (NaN); the named feature
columns are an association list from column name to value.
-/

/-- One cleaned vehicle-month row. -/
structure FeatRow where
  vehicle : ℤ
  month_ts : ℤ
  Month : ℤ
  Ca : Option ℚ
  feats : List (String × ℚ)
deriving DecidableEq

/-- The cleaned feature dataframe: its column list and its rows. -/
structure Df where
  cols : List String
  rows : List FeatRow
deriving DecidableEq

/-- Column access with numpy float semantics (an absent key would be a NaN;
the claims never exercise that case). -/
def lookupD (l : List (String × ℚ)) (k : String) : ℚ :=
  ((l.find? (fun p => p.1 == k)).map (fun p => p.2)).getD 0

/-- Projection `d[use_features]` of one row. -/
def rowFeatures (use_features : List String) (r : FeatRow) : List ℚ :=
  use_features.map (lookupD r.feats)

/-- Order on `month_ts` used by `d.sort_values("month_ts")`. -/
def tsLe (a b : FeatRow) : Prop := a.month_ts ≤ b.month_ts

instance : DecidableRel tsLe := fun a b => by unfold tsLe; infer_instance

instance : IsTotal FeatRow tsLe := ⟨by intro a b; unfold tsLe; omega⟩

instance : IsTrans FeatRow tsLe := ⟨by intro a b c hab hbc; unfold tsLe at *; omega⟩

/-- The row pipeline of `_build_vehicle_slice`: filter the table to one
vehicle, sort by `month_ts`, drop rows with missing `Ca`. -/
def sliceList (df : Df) (vid : ℤ) : List FeatRow :=
  (List.insertionSort tsLe (df.rows.filter (fun r => r.vehicle == vid))).filter
    (fun r => r.Ca.isSome)

/-- Capacity vector `c` of a slice, `d["Ca"].values`. -/
def sliceCaps (d : List FeatRow) : List ℚ := d.filterMap (fun r => r.Ca)

/-- Feature matrix `X` of a slice, `d[use_features].values`. -/
def sliceX (use_features : List String) (d : List FeatRow) : List (List ℚ) :=
  d.map (rowFeatures use_features)

/-- Month vector of a slice, `d["Month"].values`. -/
def sliceMons (d : List FeatRow) : List ℤ := d.map (fun r => r.Month)

/-- `d["Tmax_ave"]` column of a slice. -/
def sliceTmax (d : List FeatRow) : List ℚ := d.map (fun r => lookupD r.feats "Tmax_ave")

/-- `d["Tmin_ave"]` column of a slice. -/
def sliceTmin (d : List FeatRow) : List ℚ := d.map (fun r => lookupD r.feats "Tmin_ave")

/-- `_build_vehicle_slice`: the pipeline above; fail with `VehicleNotFound`
when the result is empty and with `SchemaMismatch` when a requested feature
column is absent from the table. -/
def build_vehicle_slice (df : Df) (vid : ℤ) (use_features : List String) :
    Except Err (List FeatRow) :=
  let d := sliceList df vid
  if d.isEmpty then .error .vehicleNotFound
  else if (use_features.filter (fun c => !df.cols.contains c)).isEmpty then .ok d
  else .error .schemaMismatch

/-- The fitted artifacts of the hybrid forecaster: the keras seq2seq model and
residual GPR are opaque functions; the three scalers are affine. -/
structure Artifacts where
  seq2seq : List (List ℚ) → ℚ
  gpr_res : List ℚ → ℚ
  ca_sc : Scaler
  f_sc : VecScaler
  x2_sc : VecScaler

/-- One iteration of the rolling loop of `_forecast_seq2seq_gpr`: build the
window `W` from the last `n_known` entries of `c_win` (column 0) and the
feature rows `X[k-n_known : k]`, scale capacity and features separately, run
the seq2seq model, add the scaled GPR residual for `(mon[k], Tmax_ave[k],
Tmin_ave[k])`, and inverse-transform back to physical capacity. -/
def stepPredict (A : Artifacts) (X : List (List ℚ)) (mons : List ℤ)
    (tmaxs tmins : List ℚ) (n_known : ℕ) (c_win : List ℚ) (k : ℕ) : ℚ :=
  let W0 := c_win.drop (c_win.length - n_known)
  let Wx := (X.drop (k - n_known)).take n_known
  let Wc := W0.map A.ca_sc.transform
  let Wf := Wx.map A.f_sc.transform
  let x_in := List.zipWith (fun a row => a :: row) Wc Wf
  let yhat_s := A.seq2seq x_in
  let x2 : List ℚ := [((mons.getD k 0 : ℤ) : ℚ), tmaxs.getD k 0, tmins.getD k 0]
  let rhat := A.gpr_res (A.x2_sc.transform x2)
  A.ca_sc.inverse_transform (yhat_s + rhat)

/-- The rolling loop: starting from window `c_win` at step `k`, predict `h`
consecutive values, feeding each prediction back into the window. -/
def rollN (A : Artifacts) (X : List (List ℚ)) (mons : List ℤ)
    (tmaxs tmins : List ℚ) (n_known : ℕ) : List ℚ → ℕ → ℕ → List ℚ
  | _, _, 0 => []
  | c_win, k, h + 1 =>
    let y_next := stepPredict A X mons tmaxs tmins n_known c_win k
    y_next :: rollN A X mons tmaxs tmins n_known (c_win ++ [y_next]) (k + 1) h

/-- NaN-masked full-length prediction series: `np.full_like(c, nan)` followed
by the slice assignment `y_pred[n_known : n_known + H] = pred`. -/
def maskPattern (n_known : ℕ) (pred : List ℚ) (T : ℕ) : List (Option ℚ) :=
  (List.range T).map (fun i => if n_known ≤ i then pred[i - n_known]? else none)

/-- `_forecast_seq2seq_gpr` on the cleaned table: slice the vehicle, check the
history is longer than `n_known`, run the rolling loop for
`H = min(max_h, len(c) - n_known)` steps, and return the 1-based time index,
the actual capacity vector and the NaN-masked prediction vector. -/
def forecast_seq2seq_gpr (df : Df) (vehicle : ℤ) (n_known max_h : ℤ)
    (use_features : List String) (A : Artifacts) :
    Except Err (List ℕ × List ℚ × List (Option ℚ)) :=
  match build_vehicle_slice df vehicle use_features with
  | .error e => .error e
  | .ok d =>
    let c := sliceCaps d
    if (c.length : ℤ) ≤ n_known then .error .insufficientHistory
    else
      let nk := n_known.toNat
      let H := (min max_h ((c.length : ℤ) - n_known)).toNat
      let pred := rollN A (sliceX use_features d) (sliceMons d) (sliceTmax d)
        (sliceTmin d) nk (c.take nk) nk H
      .ok (List.range' 1 c.length, c, maskPattern nk pred c.length)

/-- A trained static baseline bundle `{model, xsc}`: the fitted SVR / GPR as
an opaque per-row predictor plus its feature scaler. -/
structure StaticBundle where
  model : List ℚ → ℚ
  xsc : VecScaler

/-- `_predict_static_curve`: same slice and history check as the hybrid
forecaster, then predict each window index directly from that month's scaled
feature row — no feedback of previous predictions. -/
def predict_static_curve (df : Df) (vehicle : ℤ) (n_known max_h : ℤ)
    (use_features : List String) (bundle : StaticBundle) :
    Except Err (List ℕ × List ℚ × List (Option ℚ)) :=
  match build_vehicle_slice df vehicle use_features with
  | .error e => .error e
  | .ok d =>
    let c := sliceCaps d
    if (c.length : ℤ) ≤ n_known then .error .insufficientHistory
    else
      let nk := n_known.toNat
      let H := (min max_h ((c.length : ℤ) - n_known)).toNat
      let yhat := (((sliceX use_features d).drop nk).take H).map
        (fun row => bundle.model (bundle.xsc.transform row))
      .ok (List.range' 1 c.length, c, maskPattern nk yhat c.length)

/-- Contents of `features_f1.json`: the ordered feature-column list and the
default lookback length `N_KNOWN`. -/
structure Cfg where
  USE_FEATURES : List String
  N_KNOWN : ℤ

/-- Artifact-access events, in the order `run_forecast` performs them:
loading the feature CSV, loading/validating `features_f1.json`, loading the
five hybrid artifacts, and loading-or-training a static bundle. -/
inductive Ev where
  | featTable
  | config
  | seq2seqArt
  | gprResArt
  | caScArt
  | fScArt
  | x2ScArt
  | staticArt
deriving DecidableEq

/-- Process environment of one `run_forecast` call: which backing files exist
and what the fitted artifacts compute.  `static_cache` is the on-disk
`{model}_static.pkl` cache; `fit_static` is the opaque sklearn training step
(SVR / GPR fit plus `StandardScaler` fit) run when the cache is absent. -/
structure Env where
  feat_df : Option Df
  cfg : Option Cfg
  arts : Artifacts
  static_cache : String → Option StaticBundle
  fit_static : String → List (List ℚ) → List ℚ → StaticBundle

/-- `_load_cfg_and_artifacts`: fail with `NotFound` when `features_f1.json`
(or the feature table it validates against) is absent; fail with
`SchemaMismatch` when the table lacks the temperature columns the residual
GPR needs; otherwise return `use_features` and the default `n_known`. -/
def load_cfg_and_artifacts (env : Env) : Except Err (List String × ℤ) :=
  match env.cfg with
  | none => .error .notFound
  | some cfg =>
    match env.feat_df with
    | none => .error .notFound
    | some df =>
      if ["Tmax_ave", "Tmin_ave"].all (fun c => df.cols.contains c) then
        .ok (cfg.USE_FEATURES, cfg.N_KNOWN)
      else .error .schemaMismatch

/-- `_get_or_train_static`: load the cached bundle when the cache file
exists; otherwise pool the capacity-non-null rows of the first ten vehicle
ids in sorted order and fit a fresh regressor and scaler on them (the fit
itself is the opaque `fit_static`). -/
def get_or_train_static (env : Env) (model_name : String) (df : Df)
    (use_features : List String) : Except Err StaticBundle :=
  match env.static_cache model_name with
  | some bundle => .ok bundle
  | none =>
    let vids := (List.insertionSort (· ≤ ·) ((df.rows.map (fun r => r.vehicle)).dedup)).take 10
    let train := df.rows.filter (fun r => vids.contains r.vehicle && r.Ca.isSome)
    let X := train.map (rowFeatures use_features)
    let y := train.filterMap (fun r => r.Ca)
    if model_name == "svr" || model_name == "gpr" then
      .ok (env.fit_static model_name X y)
    else .error .unknownModel

/-- The JSON-serialisable result dict of `run_forecast`.  `rmse` is embedded
as the mean squared error over the forecast window: the code applies
`np.sqrt` to exactly this quantity, which leaves `ℚ`; its presence/absence
(`None` when the window is empty) is unchanged by the square root. -/
structure ForecastResult where
  vehicle_id : ℤ
  model : String
  model_label : String
  n_known : ℤ
  horizon : ℤ
  t : List ℕ
  actual : List (Option ℚ)
  predicted : List (Option ℚ)
  mae : Option ℚ
  rmse : Option ℚ
  current_ca : ℚ
  last_predicted_ca : ℚ
  degradation_ah : ℚ
  degradation_pct : Option ℚ
deriving DecidableEq

/-- Arithmetic mean of a list. -/
def listMean (l : List ℚ) : ℚ := l.sum / l.length

/-- Python `xs[i]` on a float list with a possibly negative (wrap-around)
index; out-of-range reads do not occur on the paths the code takes. -/
def pyGetD (l : List ℚ) (i : ℤ) : ℚ :=
  if 0 ≤ i then l.getD i.toNat 0 else l.getD (l.length - (-i).toNat) 0

/-- Resolution of the optional `n_known` argument: the bundle default when
absent or non-positive. -/
def resolve_n_known (n_known : Option ℤ) (dflt : ℤ) : ℤ :=
  match n_known with
  | none => dflt
  | some n => if n ≤ 0 then dflt else n

/-- Metric and degradation assembly at the tail of `run_forecast`: MAE and
(squared) RMSE over the non-NaN predicted positions, `current_ca` at index
`n_known - 1` of the actual series, the last non-NaN prediction (falling back
to the last actual value), and the degradation pair; arrays are emitted with
NaN as an explicit null. -/
def assemble (vehicle : ℤ) (model model_label : String) (n_known max_h : ℤ)
    (t : List ℕ) (y_true : List ℚ) (y_pred : List (Option ℚ)) : ForecastResult :=
  let nn := y_pred.filterMap id
  let pairs := (y_true.zip y_pred).filterMap (fun p => p.2.map (fun v => (p.1, v)))
  let mae := if nn.isEmpty then none else some (listMean (pairs.map (fun p => |p.1 - p.2|)))
  let rmse := if nn.isEmpty then none else some (listMean (pairs.map (fun p => (p.1 - p.2) ^ 2)))
  let current_ca := pyGetD y_true (n_known - 1)
  let last_pred := if nn.isEmpty then y_true.getLastD 0 else nn.getLastD 0
  let degr_ah := current_ca - last_pred
  let degr_pct := if 0 < current_ca then some (degr_ah / current_ca * 100) else none
  { vehicle_id := vehicle
    model := model
    model_label := model_label
    n_known := n_known
    horizon := max_h
    t := t
    actual := y_true.map some
    predicted := y_pred
    mae := mae
    rmse := rmse
    current_ca := current_ca
    last_predicted_ca := last_pred
    degradation_ah := degr_ah
    degradation_pct := degr_pct }

/-- Model dispatch of `run_forecast`: the hybrid forecaster for
`seq2seq_gpr`, the trained-or-loaded static bundle for `svr` / `gpr`, and
`UnknownModel` for anything else; returns the display label and the raw
forecast triple. -/
def dispatch (env : Env) (df : Df) (use_features : List String) (vehicle : ℤ)
    (model : String) (n_known max_h : ℤ) :
    Except Err (String × List ℕ × List ℚ × List (Option ℚ)) :=
  if model == "seq2seq_gpr" then
    (forecast_seq2seq_gpr df vehicle n_known max_h use_features env.arts).map
      (fun tcy => ("Seq2Seq-I + GPR-I", tcy))
  else if model == "svr" || model == "gpr" then
    match get_or_train_static env model df use_features with
    | .error e => .error e
    | .ok bundle =>
      (predict_static_curve df vehicle n_known max_h use_features bundle).map
        (fun tcy => (model.toUpper, tcy))
  else .error .unknownModel

/-- `run_forecast` with its artifact-access trace: load the feature table,
load and validate the configuration, resolve `n_known`, dispatch on the model
key, and assemble the result.  The first component records which artifacts
were touched, in order; the second is the call's outcome. -/
def run_forecast_ev (env : Env) (vehicle : ℤ) (model : String)
    (n_known : Option ℤ) (max_h : ℤ) : List Ev × Except Err ForecastResult :=
  match env.feat_df with
  | none => ([Ev.featTable], .error .notFound)
  | some df =>
    match load_cfg_and_artifacts env with
    | .error e => ([Ev.featTable, Ev.config], .error e)
    | .ok (use_features, n_known_default) =>
      let nk := resolve_n_known n_known n_known_default
      let evs :=
        if model == "seq2seq_gpr" then
          [Ev.featTable, Ev.config, Ev.seq2seqArt, Ev.gprResArt, Ev.caScArt,
            Ev.fScArt, Ev.x2ScArt]
        else if model == "svr" || model == "gpr" then
          [Ev.featTable, Ev.config, Ev.staticArt]
        else [Ev.featTable, Ev.config]
      (evs, (dispatch env df use_features vehicle model nk max_h).map
        (fun p => assemble vehicle model p.1 nk max_h p.2.1 p.2.2.1 p.2.2.2))

/-- Outcome of `run_forecast`, the public entry point. -/
def run_forecast (env : Env) (vehicle : ℤ) (model : String)
    (n_known : Option ℤ) (max_h : ℤ) : Except Err ForecastResult :=
  (run_forecast_ev env vehicle model n_known max_h).2

/-
Concrete instances used to exhibit that the hypotheses of the theorems below
are satisfiable: a tiny three-month table for vehicle 1, trivial fitted
artifacts, and the various call results extracted from them.
-/

/-- Trivial fitted artifacts: constant models, identity scalers. -/
def A0 : Artifacts :=
  { seq2seq := fun _ => 0, gpr_res := fun _ => 0, ca_sc := ⟨0, 1⟩,
    f_sc := ⟨[0], [1]⟩, x2_sc := ⟨[0, 0, 0], [1, 1, 1]⟩ }

/-- Trivial static bundle: the row sum under an identity scaler. -/
def B0 : StaticBundle := { model := fun row => row.sum, xsc := ⟨[0], [1]⟩ }

/-- One cleaned row of the small example table for vehicle 1. -/
def mkRow (ts : ℤ) (ca f1 : ℚ) : FeatRow :=
  { vehicle := 1, month_ts := ts, Month := ts, Ca := some ca,
    feats := [("Tmax_ave", 30), ("Tmin_ave", 10), ("f1", f1)] }

/-- Feature-column list of the example table. -/
def UF1 : List String := ["f1"]

/-- Example table: vehicle 1 with three fully-observed months. -/
def DF1 : Df :=
  { cols := ["Tmax_ave", "Tmin_ave", "f1"],
    rows := [mkRow 1 10 1, mkRow 2 9 2, mkRow 3 8 3] }

/-- Example table differing from `DF1` only in the feature value of the row
at slice index 2. -/
def DF1b : Df :=
  { cols := ["Tmax_ave", "Tmin_ave", "f1"],
    rows := [mkRow 1 10 1, mkRow 2 9 2, mkRow 3 8 99] }

/-- Example table whose only row for vehicle 1 has a missing capacity. -/
def DF5 : Df :=
  { cols := ["Tmax_ave", "Tmin_ave", "f1"],
    rows := [{ vehicle := 1, month_ts := 1, Month := 1, Ca := none, feats := [] }] }

/-- Example configuration. -/
def CFG1 : Cfg := { USE_FEATURES := UF1, N_KNOWN := 6 }

/-- Example environment: table and configuration present, static cache warm. -/
def E1 : Env :=
  { feat_df := some DF1, cfg := some CFG1, arts := A0,
    static_cache := fun _ => some B0, fit_static := fun _ _ _ => B0 }

/-- Placeholder result used only as the default of result extraction. -/
def FR0 : ForecastResult :=
  { vehicle_id := 0, model := "", model_label := "", n_known := 0, horizon := 0,
    t := [], actual := [], predicted := [], mae := none, rmse := none,
    current_ca := 0, last_predicted_ca := 0, degradation_ah := 0,
    degradation_pct := none }

/-- Result of the example hybrid call. -/
def R1 : ForecastResult :=
  (run_forecast E1 1 "seq2seq_gpr" (some 1) 5).toOption.getD FR0

/-- Result of the example static call with a non-positive horizon. -/
def R10 : ForecastResult :=
  (run_forecast E1 1 "gpr" (some 1) 0).toOption.getD FR0

/-- Raw triple of the example hybrid forecaster call. -/
def T3 : List ℕ × List ℚ × List (Option ℚ) :=
  (forecast_seq2seq_gpr DF1 1 1 5 UF1 A0).toOption.getD ([], [], [])

/-- Vehicle slice of the example table. -/
def D1 : List FeatRow := (build_vehicle_slice DF1 1 UF1).toOption.getD []

/-- Raw triple of the example static call on `DF1`. -/
def T6 : List ℕ × List ℚ × List (Option ℚ) :=
  (predict_static_curve DF1 1 1 5 UF1 B0).toOption.getD ([], [], [])

/-- Raw triple of the example static call on the perturbed table `DF1b`. -/
def T6b : List ℕ × List ℚ × List (Option ℚ) :=
  (predict_static_curve DF1b 1 1 5 UF1 B0).toOption.getD ([], [], [])

/-- Raw CSV rows with a duplicate `(vehicle, month_ts)` key, an out-of-order
row and a non-numeric cell. -/
def ROWS8 : List RawRow :=
  [{ vehicle := 2, month_ts := 1, MonthCell := .num 1, cells := [.num 7] },
   { vehicle := 1, month_ts := 2, MonthCell := .num 2, cells := [.str "bad"] },
   { vehicle := 1, month_ts := 2, MonthCell := .num 2, cells := [.num 5] },
   { vehicle := 1, month_ts := 1, MonthCell := .num 1, cells := [.num 3] }]

/-- Cleaned table loaded from `ROWS8`. -/
def OUT8 : List RawRow := (load_feat_df (some ROWS8)).toOption.getD []

/-- Vehicle slice of the perturbed example table. -/
def D1b : List FeatRow := (build_vehicle_slice DF1b 1 UF1).toOption.getD []

/-- Rolling-loop prediction sequence of the example hybrid call
(`n_known = 1`, effective horizon 2). -/
def PRED3 : List ℚ :=
  rollN A0 (sliceX UF1 D1) (sliceMons D1) (sliceTmax D1) (sliceTmin D1) 1
    ((sliceCaps D1).take 1) 1 2

/-
Theorems.
-/

theorem affTrans_affInv_id (v m s : List ℚ) (hm : v.length = m.length)
    (hs : m.length = s.length) (h : ∀ x ∈ s, x ≠ 0) :
    affInv (affTrans v m s) m s = v := by
  induction v generalizing m s with
  | nil =>
    cases m with
    | nil =>
      cases s with
      | nil => rfl
      | cons a as => simp at hs
    | cons a as => simp at hm
  | cons x xs ih =>
    cases m with
    | nil => simp at hm
    | cons m0 ms =>
      cases s with
      | nil => simp at hs
      | cons s0 ss =>
        have hs0 : s0 ≠ 0 := h s0 (by simp)
        have hrest : ∀ x ∈ ss, x ≠ 0 := fun x hx => h x (by simp [hx])
        simp only [affTrans, affInv]
        have hhead : (x - m0) / s0 * s0 + m0 = x := by field_simp
        rw [hhead, ih ms ss (by simpa using hm) (by simpa using hs) hrest]

/-- C7: for each of the three fitted scalers (capacity `ca_sc`, feature
`f_sc`, exogenous `x2_sc`), under the sklearn guarantee that every fitted
scale entry is non-zero, `inverse_transform (transform v) = v` holds exactly
(hence within any floating-point tolerance) for every value `v` of the
scaler's width. -/
theorem C7_scaler_round_trip (ca : Scaler) (f x2 : VecScaler)
    (hca : ca.scale ≠ 0) (hf : ∀ x ∈ f.scale, x ≠ 0)
    (hx2 : ∀ x ∈ x2.scale, x ≠ 0) :
    (∀ v, ca.inverse_transform (ca.transform v) = v) ∧
    (∀ v, v.length = f.mean.length → f.mean.length = f.scale.length →
      f.inverse_transform (f.transform v) = v) ∧
    (∀ v, v.length = x2.mean.length → x2.mean.length = x2.scale.length →
      x2.inverse_transform (x2.transform v) = v) := by
  refine ⟨fun v => ?_, fun v hm hs => ?_, fun v hm hs => ?_⟩
  · unfold Scaler.inverse_transform Scaler.transform
    field_simp
  · exact affTrans_affInv_id v f.mean f.scale hm hs hf
  · exact affTrans_affInv_id v x2.mean x2.scale hm hs hx2

theorem C7_scaler_round_trip_witness :
    (Scaler.mk 2 3).inverse_transform ((Scaler.mk 2 3).transform 7) = 7 ∧
    (VecScaler.mk [1] [2]).inverse_transform
      ((VecScaler.mk [1] [2]).transform [5]) = [5] ∧
    (VecScaler.mk [0, 1, 2] [1, 2, 4]).inverse_transform
      ((VecScaler.mk [0, 1, 2] [1, 2, 4]).transform [3, 4, 5]) = [3, 4, 5] := by
  have h := C7_scaler_round_trip ⟨2, 3⟩ ⟨[1], [2]⟩ ⟨[0, 1, 2], [1, 2, 4]⟩
    (by norm_num) (by decide) (by decide)
  exact ⟨h.1 7, h.2.1 [5] rfl rfl, h.2.2 [3, 4, 5] rfl rfl⟩

theorem drop_duplicates_sublist (seen : List (ℤ × ℤ)) (l : List RawRow) :
    (drop_duplicates seen l).Sublist l := by
  induction l generalizing seen with
  | nil => simp [drop_duplicates]
  | cons r rs ih =>
    simp only [drop_duplicates]
    split
    · exact (ih seen).trans (List.sublist_cons_self r rs)
    · exact (ih _).cons₂ r

theorem drop_duplicates_key_not_seen (seen : List (ℤ × ℤ)) (l : List RawRow) :
    ∀ r ∈ drop_duplicates seen l, rawKey r ∉ seen := by
  induction l generalizing seen with
  | nil => simp [drop_duplicates]
  | cons r rs ih =>
    intro x hx
    simp only [drop_duplicates] at hx
    split at hx
    · exact ih seen x hx
    · rcases List.mem_cons.mp hx with h | h
      · subst h; assumption
      · intro hmem
        exact ih _ x h (List.mem_cons_of_mem _ hmem)

theorem drop_duplicates_nodup_keys (seen : List (ℤ × ℤ)) (l : List RawRow) :
    ((drop_duplicates seen l).map rawKey).Nodup := by
  induction l generalizing seen with
  | nil => simp [drop_duplicates]
  | cons r rs ih =>
    simp only [drop_duplicates]
    split
    · exact ih seen
    · rw [List.map_cons, List.nodup_cons]
      refine ⟨fun hmem => ?_, ih _⟩
      rcases List.mem_map.mp hmem with ⟨x, hx, hkey⟩
      exact drop_duplicates_key_not_seen _ rs x hx (hkey ▸ List.mem_cons_self _ _)

theorem drop_duplicates_filter_seen (seen : List (ℤ × ℤ)) (l : List RawRow)
    (k : ℤ × ℤ) (hk : k ∈ seen) :
    (drop_duplicates seen l).filter (fun r => decide (rawKey r = k)) = [] := by
  induction l generalizing seen with
  | nil => simp [drop_duplicates]
  | cons r rs ih =>
    simp only [drop_duplicates]
    split
    · exact ih seen hk
    · rename_i hns
      have hrk : ¬(rawKey r = k) := fun h => hns (h ▸ hk)
      rw [List.filter_cons]
      simp only [hrk]
      simp only [decide_eq_true_eq, hrk, if_false]
      exact ih _ (List.mem_cons_of_mem _ hk)

theorem drop_duplicates_filter_take (seen : List (ℤ × ℤ)) (l : List RawRow)
    (k : ℤ × ℤ) (hk : k ∉ seen) :
    (drop_duplicates seen l).filter (fun r => decide (rawKey r = k)) =
      (l.filter (fun r => decide (rawKey r = k))).take 1 := by
  induction l generalizing seen with
  | nil => simp [drop_duplicates]
  | cons r rs ih =>
    simp only [drop_duplicates]
    split
    · rename_i hs
      have hrk : ¬(rawKey r = k) := fun h => hk (h ▸ hs)
      rw [List.filter_cons]
      simp only [decide_eq_true_eq, hrk, if_false]
      exact ih seen hk
    · rename_i hns
      by_cases hrk : rawKey r = k
      · rw [List.filter_cons, List.filter_cons]
        simp only [decide_eq_true_eq, hrk, if_true]
        rw [drop_duplicates_filter_seen _ _ _ (hrk ▸ List.mem_cons_self _ _)]
        simp
      · rw [List.filter_cons, List.filter_cons]
        simp only [decide_eq_true_eq, hrk, if_false]
        have hkc : k ∉ rawKey r :: seen := by
          intro h
          rcases List.mem_cons.mp h with h | h
          · exact hrk h.symm
          · exact hk h
        exact ih _ hkc

theorem coerceRow_cells_numeric (r0 : RawRow) :
    ∀ cl ∈ (coerceRow r0).cells, cl.isNumericB = true := by
  intro cl hcl
  simp only [coerceRow, List.mem_map] at hcl
  rcases hcl with ⟨c0, _, hc⟩
  subst hc
  cases c0 <;> rfl

/-- C8: `load_feat_df` fails with `NotFound` when the backing file is absent;
otherwise the loaded table is sorted by `(vehicle, month_ts)`, has no
duplicate key — keeping, for each key, exactly the first matching row of the
sorted coerced input — every output row is a numerically-coerced input row,
and every cell outside the identifier / time columns is numeric (invalid
values having become missing). -/
theorem C8_load_feat_df_clean :
    load_feat_df none = .error .notFound ∧
    (∀ rows out, load_feat_df (some rows) = .ok out →
      out.Pairwise keyLe ∧
      (out.map rawKey).Nodup ∧
      (∀ k, out.filter (fun r => decide (rawKey r = k)) =
        ((List.insertionSort keyLe (rows.map coerceRow)).filter
          (fun r => decide (rawKey r = k))).take 1) ∧
      (∀ r ∈ out, ∃ r0 ∈ rows, r = coerceRow r0) ∧
      (∀ r ∈ out, ∀ cl ∈ r.cells, cl.isNumericB = true)) := by
  refine ⟨rfl, fun rows out h => ?_⟩
  have hout : out = drop_duplicates [] (List.insertionSort keyLe (rows.map coerceRow)) := by
    simpa [load_feat_df] using h.symm
  subst hout
  have hmem : ∀ r ∈ drop_duplicates [] (List.insertionSort keyLe (rows.map coerceRow)),
      ∃ r0 ∈ rows, r = coerceRow r0 := by
    intro r hr
    have h1 : r ∈ List.insertionSort keyLe (rows.map coerceRow) :=
      (drop_duplicates_sublist _ _).subset hr
    have h2 : r ∈ rows.map coerceRow :=
      (List.perm_insertionSort keyLe (rows.map coerceRow)).subset h1
    rcases List.mem_map.mp h2 with ⟨r0, hr0, hc⟩
    exact ⟨r0, hr0, hc.symm⟩
  refine ⟨?_, drop_duplicates_nodup_keys _ _,
    fun k => drop_duplicates_filter_take _ _ k (List.not_mem_nil k), hmem, ?_⟩
  · exact List.Pairwise.sublist (drop_duplicates_sublist _ _)
      (List.sorted_insertionSort keyLe (rows.map coerceRow))
  · intro r hr
    rcases hmem r hr with ⟨r0, _, hc⟩
    exact hc ▸ coerceRow_cells_numeric r0

theorem C8_load_feat_df_clean_witness :
    load_feat_df (some ROWS8) = .ok OUT8 ∧
    OUT8.Pairwise keyLe ∧
    (OUT8.map rawKey).Nodup ∧
    OUT8.filter (fun r => decide (rawKey r = (1, 2))) =
      ((List.insertionSort keyLe (ROWS8.map coerceRow)).filter
        (fun r => decide (rawKey r = (1, 2)))).take 1 := by
  have h := C8_load_feat_df_clean.2 ROWS8 OUT8 rfl
  exact ⟨rfl, h.1, h.2.1, h.2.2.1 (1, 2)⟩

theorem isSome_getElem_iff {α : Type} (l : List α) (i : ℕ) :
    l[i]?.isSome = true ↔ i < l.length := by
  rw [Option.isSome_iff_exists]
  constructor
  · rintro ⟨v, hv⟩
    exact (List.getElem?_eq_some.mp hv).1
  · intro h
    exact ⟨l[i], List.getElem?_eq_some.mpr ⟨h, rfl⟩⟩

theorem getLast?_of_ne_nil {α : Type} {l : List α} (d : α) (h : l ≠ []) :
    l.getLast? = some (l.getLastD d) := by
  cases hx : l.getLast? with
  | none => exact absurd (List.getLast?_eq_none_iff.mp hx) h
  | some x => rw [List.getLastD_eq_getLast?, hx]; rfl

theorem rollN_length (A : Artifacts) (X : List (List ℚ)) (mons : List ℤ)
    (tmaxs tmins : List ℚ) (nk : ℕ) :
    ∀ (h : ℕ) (c_win : List ℚ) (k : ℕ),
      (rollN A X mons tmaxs tmins nk c_win k h).length = h := by
  intro h
  induction h with
  | zero => intro c_win k; rfl
  | succ n ih => intro c_win k; simp [rollN, ih]

theorem rollN_getD (A : Artifacts) (X : List (List ℚ)) (mons : List ℤ)
    (tmaxs tmins : List ℚ) (nk : ℕ) :
    ∀ (h : ℕ) (c_win : List ℚ) (k i : ℕ), i < h →
      (rollN A X mons tmaxs tmins nk c_win k h).getD i 0 =
        stepPredict A X mons tmaxs tmins nk
          (c_win ++ (rollN A X mons tmaxs tmins nk c_win k h).take i) (k + i) := by
  intro h
  induction h with
  | zero => intro c_win k i hi; omega
  | succ n ih =>
    intro c_win k i hi
    cases i with
    | zero => simp [rollN]
    | succ j =>
      have hj : j < n := by omega
      simp only [rollN, List.getD_cons_succ, List.take_succ_cons]
      rw [ih _ (k + 1) j hj]
      have hk : k + 1 + j = k + (j + 1) := by omega
      rw [hk, ← List.append_cons]

theorem maskPattern_length (nk : ℕ) (pred : List ℚ) (T : ℕ) :
    (maskPattern nk pred T).length = T := by
  simp [maskPattern]

theorem maskPattern_getD (nk : ℕ) (pred : List ℚ) (T i : ℕ) (hi : i < T) :
    (maskPattern nk pred T).getD i none =
      if nk ≤ i then pred[i - nk]? else none := by
  unfold maskPattern
  rw [List.getD_eq_getElem?_getD, List.getElem?_map, List.getElem?_range hi]
  rfl

theorem maskPattern_isSome (nk : ℕ) (pred : List ℚ) (T i : ℕ) (hi : i < T) :
    ((maskPattern nk pred T).getD i none).isSome = true ↔
      (nk ≤ i ∧ i - nk < pred.length) := by
  rw [maskPattern_getD nk pred T i hi]
  by_cases h : nk ≤ i
  · simp only [h, if_true, true_and]
    exact isSome_getElem_iff pred (i - nk)
  · simp [h]

theorem maskPattern_nil_mem (nk : ℕ) (T : ℕ) :
    ∀ x ∈ maskPattern nk ([] : List ℚ) T, x = none := by
  intro x hx
  unfold maskPattern at hx
  rcases List.mem_map.mp hx with ⟨i, _, hix⟩
  rw [← hix]
  split <;> simp

theorem filterMap_id_of_all_none {l : List (Option ℚ)} (h : ∀ x ∈ l, x = none) :
    l.filterMap id = [] := by
  induction l with
  | nil => rfl
  | cons a as ih =>
    have ha := h a (List.mem_cons_self _ _)
    subst ha
    simpa using ih (fun x hx => h x (List.mem_cons_of_mem _ hx))

theorem sliceList_ca_isSome (df : Df) (vid : ℤ) :
    ∀ r ∈ sliceList df vid, r.Ca.isSome = true := by
  intro r hr
  unfold sliceList at hr
  exact (List.mem_filter.mp hr).2

theorem sliceCaps_length {d : List FeatRow} (h : ∀ r ∈ d, r.Ca.isSome = true) :
    (sliceCaps d).length = d.length := by
  unfold sliceCaps
  induction d with
  | nil => rfl
  | cons r rs ih =>
    have hr := h r (List.mem_cons_self _ _)
    rcases Option.isSome_iff_exists.mp hr with ⟨v, hv⟩
    simp [List.filterMap_cons, hv,
      ih (fun x hx => h x (List.mem_cons_of_mem _ hx))]

theorem sliceList_length (df : Df) (vid : ℤ) :
    (sliceList df vid).length =
      (df.rows.filter (fun r => r.vehicle == vid && r.Ca.isSome)).length := by
  unfold sliceList
  have hperm := (List.perm_insertionSort tsLe
    (df.rows.filter (fun r => r.vehicle == vid))).filter (fun r => r.Ca.isSome)
  rw [hperm.length_eq, List.filter_filter]
  congr 1
  apply List.filter_congr
  intro r _
  rw [Bool.and_comm]

theorem build_vehicle_slice_ok_inv {df : Df} {vid : ℤ} {uf : List String}
    {d : List FeatRow} (h : build_vehicle_slice df vid uf = .ok d) :
    d = sliceList df vid ∧ d ≠ [] ∧
      (uf.filter (fun c => !df.cols.contains c)).isEmpty = true := by
  simp only [build_vehicle_slice] at h
  split at h
  · exact absurd h (by simp)
  · split at h
    · rename_i h1 h2
      have hd := Except.ok.inj h
      subst hd
      exact ⟨rfl, fun hn => h1 (by rw [hn]; rfl), h2⟩
    · exact absurd h (by simp)

theorem forecast_seq2seq_gpr_ok_inv {df : Df} {vehicle : ℤ} {n_known max_h : ℤ}
    {uf : List String} {A : Artifacts} {t : List ℕ} {c : List ℚ}
    {yp : List (Option ℚ)}
    (h : forecast_seq2seq_gpr df vehicle n_known max_h uf A = .ok (t, c, yp)) :
    ∃ d, build_vehicle_slice df vehicle uf = .ok d ∧
      c = sliceCaps d ∧ n_known < (c.length : ℤ) ∧
      t = List.range' 1 c.length ∧
      yp = maskPattern n_known.toNat
        (rollN A (sliceX uf d) (sliceMons d) (sliceTmax d) (sliceTmin d)
          n_known.toNat ((sliceCaps d).take n_known.toNat) n_known.toNat
          ((min max_h (((sliceCaps d).length : ℤ) - n_known)).toNat))
        c.length := by
  unfold forecast_seq2seq_gpr at h
  cases hs : build_vehicle_slice df vehicle uf with
  | error e => rw [hs] at h; simp at h
  | ok d =>
    rw [hs] at h
    simp only [] at h
    split at h
    · simp at h
    · rename_i hlen
      have h3 := Except.ok.inj h
      obtain ⟨ht, h4⟩ := Prod.ext_iff.mp h3
      obtain ⟨hc, hy⟩ := Prod.ext_iff.mp h4
      simp only at ht hc hy
      subst ht; subst hc; subst hy
      exact ⟨d, rfl, rfl, by omega, rfl, rfl⟩

theorem predict_static_curve_ok_inv {df : Df} {vehicle : ℤ} {n_known max_h : ℤ}
    {uf : List String} {bundle : StaticBundle} {t : List ℕ} {c : List ℚ}
    {yp : List (Option ℚ)}
    (h : predict_static_curve df vehicle n_known max_h uf bundle = .ok (t, c, yp)) :
    ∃ d, build_vehicle_slice df vehicle uf = .ok d ∧
      c = sliceCaps d ∧ n_known < (c.length : ℤ) ∧
      t = List.range' 1 c.length ∧
      yp = maskPattern n_known.toNat
        ((((sliceX uf d).drop n_known.toNat).take
            ((min max_h (((sliceCaps d).length : ℤ) - n_known)).toNat)).map
          (fun row => bundle.model (bundle.xsc.transform row)))
        c.length := by
  unfold predict_static_curve at h
  cases hs : build_vehicle_slice df vehicle uf with
  | error e => rw [hs] at h; simp at h
  | ok d =>
    rw [hs] at h
    simp only [] at h
    split at h
    · simp at h
    · rename_i hlen
      have h3 := Except.ok.inj h
      obtain ⟨ht, h4⟩ := Prod.ext_iff.mp h3
      obtain ⟨hc, hy⟩ := Prod.ext_iff.mp h4
      simp only at ht hc hy
      subst ht; subst hc; subst hy
      exact ⟨d, rfl, rfl, by omega, rfl, rfl⟩

theorem get_or_train_static_ok (env : Env) (df : Df) (uf : List String)
    {m : String} (hm : m = "svr" ∨ m = "gpr") :
    ∃ b, get_or_train_static env m df uf = .ok b := by
  unfold get_or_train_static
  cases hc : env.static_cache m with
  | some b => exact ⟨b, rfl⟩
  | none =>
    rcases hm with rfl | rfl
    · exact ⟨_, rfl⟩
    · exact ⟨_, rfl⟩

theorem resolve_n_known_pos {nopt : Option ℤ} {dflt : ℤ} (h : 0 < dflt) :
    0 < resolve_n_known nopt dflt := by
  unfold resolve_n_known
  cases nopt with
  | none => exact h
  | some n =>
    dsimp only
    split <;> omega

theorem load_cfg_and_artifacts_ok_inv {env : Env} {uf : List String} {nkd : ℤ}
    (h : load_cfg_and_artifacts env = .ok (uf, nkd)) :
    ∃ cfg df, env.cfg = some cfg ∧ env.feat_df = some df ∧
      uf = cfg.USE_FEATURES ∧ nkd = cfg.N_KNOWN ∧
      (["Tmax_ave", "Tmin_ave"].all (fun s => df.cols.contains s)) = true := by
  unfold load_cfg_and_artifacts at h
  cases hc : env.cfg with
  | none => rw [hc] at h; simp at h
  | some cfg =>
    rw [hc] at h
    cases hdf : env.feat_df with
    | none => rw [hdf] at h; simp at h
    | some df =>
      rw [hdf] at h
      simp only [] at h
      split at h
      · rename_i hcols
        have h2 := Except.ok.inj h
        obtain ⟨h3, h4⟩ := Prod.ext_iff.mp h2
        simp only at h3 h4
        exact ⟨cfg, df, rfl, rfl, h3.symm, h4.symm, hcols⟩
      · simp at h

theorem dispatch_ok_inv {env : Env} {df : Df} {uf : List String} {vehicle : ℤ}
    {model : String} {n_known max_h : ℤ} {label : String} {t : List ℕ}
    {c : List ℚ} {yp : List (Option ℚ)} (hnk : 0 ≤ n_known)
    (h : dispatch env df uf vehicle model n_known max_h = .ok (label, t, c, yp)) :
    ∃ d pred, build_vehicle_slice df vehicle uf = .ok d ∧
      c = sliceCaps d ∧ n_known < (c.length : ℤ) ∧
      t = List.range' 1 c.length ∧
      pred.length = (min max_h ((c.length : ℤ) - n_known)).toNat ∧
      yp = maskPattern n_known.toNat pred c.length := by
  unfold dispatch at h
  split at h
  · cases hf : forecast_seq2seq_gpr df vehicle n_known max_h uf env.arts with
    | error e => rw [hf] at h; simp [Except.map] at h
    | ok q =>
      rw [hf] at h
      obtain ⟨t', c', yp'⟩ := q
      simp only [Except.map] at h
      have h3 := Except.ok.inj h
      obtain ⟨hl, h4⟩ := Prod.ext_iff.mp h3
      obtain ⟨ht, h5⟩ := Prod.ext_iff.mp h4
      obtain ⟨hc, hy⟩ := Prod.ext_iff.mp h5
      simp only at hl ht hc hy
      subst ht; subst hc; subst hy
      obtain ⟨d, hsl, hc2, hlen, ht2, hy2⟩ := forecast_seq2seq_gpr_ok_inv hf
      subst hc2
      refine ⟨d, _, hsl, rfl, hlen, ht2, ?_, hy2⟩
      rw [rollN_length]
  · split at h
    · cases hb : get_or_train_static env model df uf with
      | error e => rw [hb] at h; simp at h
      | ok bundle =>
        rw [hb] at h
        simp only [] at h
        cases hp : predict_static_curve df vehicle n_known max_h uf bundle with
        | error e => rw [hp] at h; simp [Except.map] at h
        | ok q =>
          rw [hp] at h
          obtain ⟨t', c', yp'⟩ := q
          simp only [Except.map] at h
          have h3 := Except.ok.inj h
          obtain ⟨hl, h4⟩ := Prod.ext_iff.mp h3
          obtain ⟨ht, h5⟩ := Prod.ext_iff.mp h4
          obtain ⟨hc, hy⟩ := Prod.ext_iff.mp h5
          simp only at hl ht hc hy
          subst ht; subst hc; subst hy
          obtain ⟨d, hsl, hc2, hlen, ht2, hy2⟩ := predict_static_curve_ok_inv hp
          subst hc2
          have hd := (build_vehicle_slice_ok_inv hsl).1
          have hca : ∀ r ∈ d, r.Ca.isSome = true := by
            rw [hd]; exact sliceList_ca_isSome df vehicle
          have hclen : (sliceCaps d).length = d.length := sliceCaps_length hca
          refine ⟨d, _, hsl, rfl, hlen, ht2, ?_, hy2⟩
          rw [List.length_map, List.length_take, List.length_drop]
          simp only [sliceX, List.length_map]
          omega
    · simp at h

theorem run_forecast_ok_inv {env : Env} {vehicle : ℤ} {model : String}
    {n_known : Option ℤ} {max_h : ℤ} {r : ForecastResult}
    (h : run_forecast env vehicle model n_known max_h = .ok r) :
    ∃ df uf nkd label t c yp,
      env.feat_df = some df ∧
      load_cfg_and_artifacts env = .ok (uf, nkd) ∧
      dispatch env df uf vehicle model (resolve_n_known n_known nkd) max_h =
        .ok (label, t, c, yp) ∧
      r = assemble vehicle model label (resolve_n_known n_known nkd) max_h t c yp := by
  unfold run_forecast run_forecast_ev at h
  cases hdf : env.feat_df with
  | none => rw [hdf] at h; simp at h
  | some df =>
    rw [hdf] at h
    cases hcfg : load_cfg_and_artifacts env with
    | error e => rw [hcfg] at h; simp at h
    | ok p =>
      rw [hcfg] at h
      obtain ⟨uf, nkd⟩ := p
      simp only [] at h
      cases hd : dispatch env df uf vehicle model (resolve_n_known n_known nkd) max_h with
      | error e => rw [hd] at h; simp [Except.map] at h
      | ok q =>
        rw [hd] at h
        obtain ⟨label, t, c, yp⟩ := q
        simp only [Except.map] at h
        have h2 := Except.ok.inj h
        exact ⟨df, uf, nkd, label, t, c, yp, rfl, rfl, hd, h2.symm⟩

/-- C1: every successful `run_forecast` call (any of the three model keys)
returns `t`, `actual` and `predicted` of one common length `T`, the number of
capacity-non-null rows of the vehicle, and `predicted[i]` is non-null exactly
when `n_known ≤ i < n_known + H` with `H = min(horizon, T - n_known)`; all
other positions are null. -/
theorem C1_result_shape (env : Env) (vehicle : ℤ) (model : String)
    (n_known : Option ℤ) (max_h : ℤ) (r : ForecastResult) (df : Df)
    (hdf : env.feat_df = some df)
    (hpos : ∀ cfg, env.cfg = some cfg → 0 < cfg.N_KNOWN)
    (h : run_forecast env vehicle model n_known max_h = .ok r) :
    r.t.length =
      (df.rows.filter (fun row => row.vehicle == vehicle && row.Ca.isSome)).length ∧
    r.actual.length =
      (df.rows.filter (fun row => row.vehicle == vehicle && row.Ca.isSome)).length ∧
    r.predicted.length =
      (df.rows.filter (fun row => row.vehicle == vehicle && row.Ca.isSome)).length ∧
    ∀ i : ℕ,
      i < (df.rows.filter (fun row => row.vehicle == vehicle && row.Ca.isSome)).length →
      ((r.predicted.getD i none).isSome = true ↔
        (r.n_known ≤ (i : ℤ) ∧ (i : ℤ) < r.n_known +
          min r.horizon
            (((df.rows.filter (fun row =>
                row.vehicle == vehicle && row.Ca.isSome)).length : ℤ) - r.n_known))) := by
  obtain ⟨df', uf, nkd, label, t, c, yp, hdf', hcfg, hd, hr⟩ := run_forecast_ok_inv h
  rw [hdf] at hdf'
  have hdfeq := Option.some.inj hdf'
  subst hdfeq
  obtain ⟨cfg, df2, hc, hdf2, hufe, hnkd, hcols⟩ := load_cfg_and_artifacts_ok_inv hcfg
  have hn : 0 < nkd := hnkd ▸ hpos cfg hc
  have hnkpos : 0 < resolve_n_known n_known nkd := resolve_n_known_pos hn
  obtain ⟨d, pred, hsl, hc2, hlen, ht2, hpl, hy2⟩ := dispatch_ok_inv (by omega) hd
  have hdsl := (build_vehicle_slice_ok_inv hsl).1
  have hT : c.length =
      (df.rows.filter (fun row => row.vehicle == vehicle && row.Ca.isSome)).length := by
    rw [hc2, hdsl, sliceCaps_length (sliceList_ca_isSome df vehicle),
      sliceList_length]
  subst hr
  refine ⟨?_, ?_, ?_, ?_⟩
  · simp only [assemble]
    rw [ht2, List.length_range', hT]
  · simp only [assemble]
    rw [List.length_map, hT]
  · simp only [assemble]
    rw [hy2, maskPattern_length, hT]
  · intro i hi
    simp only [assemble]
    rw [hy2, maskPattern_isSome _ pred c.length i (hT ▸ hi), hpl, ← hT]
    generalize min max_h ((c.length : ℤ) - resolve_n_known n_known nkd) = Hz
    omega

theorem C1_result_shape_witness :
    R1.t.length =
      (DF1.rows.filter (fun row => row.vehicle == 1 && row.Ca.isSome)).length ∧
    ((R1.predicted.getD 1 none).isSome = true ↔
      (R1.n_known ≤ (1 : ℤ) ∧ (1 : ℤ) < R1.n_known +
        min R1.horizon
          (((DF1.rows.filter (fun row =>
              row.vehicle == 1 && row.Ca.isSome)).length : ℤ) - R1.n_known))) := by
  have hpos : ∀ cfg, E1.cfg = some cfg → 0 < cfg.N_KNOWN := by
    intro cfg hc
    have := Option.some.inj hc
    rw [← this]
    decide
  have h := C1_result_shape E1 1 "seq2seq_gpr" (some 1) 5 R1 DF1 rfl hpos rfl
  exact ⟨h.1, h.2.2.2 1 (by decide)⟩

/-- C9: for every successful `run_forecast` call, every entry of the returned
`actual` list is non-null, and its length counts exactly the
capacity-non-null rows of the vehicle: the slice drops rows with missing
capacity before forecasting, even though the result type admits nulls. -/
theorem C9_actual_never_null (env : Env) (vehicle : ℤ) (model : String)
    (n_known : Option ℤ) (max_h : ℤ) (r : ForecastResult) (df : Df)
    (hdf : env.feat_df = some df)
    (hpos : ∀ cfg, env.cfg = some cfg → 0 < cfg.N_KNOWN)
    (h : run_forecast env vehicle model n_known max_h = .ok r) :
    (∀ a ∈ r.actual, a.isSome = true) ∧
    r.actual.length =
      (df.rows.filter (fun row => row.vehicle == vehicle && row.Ca.isSome)).length := by
  obtain ⟨df', uf, nkd, label, t, c, yp, hdf', hcfg, hd, hr⟩ := run_forecast_ok_inv h
  rw [hdf] at hdf'
  have hdfeq := Option.some.inj hdf'
  subst hdfeq
  obtain ⟨cfg, df2, hc, hdf2, hufe, hnkd, hcols⟩ := load_cfg_and_artifacts_ok_inv hcfg
  have hn : 0 < nkd := hnkd ▸ hpos cfg hc
  have hnkpos : 0 < resolve_n_known n_known nkd := resolve_n_known_pos hn
  obtain ⟨d, pred, hsl, hc2, hlen, ht2, hpl, hy2⟩ := dispatch_ok_inv (by omega) hd
  have hdsl := (build_vehicle_slice_ok_inv hsl).1
  have hT : c.length =
      (df.rows.filter (fun row => row.vehicle == vehicle && row.Ca.isSome)).length := by
    rw [hc2, hdsl, sliceCaps_length (sliceList_ca_isSome df vehicle),
      sliceList_length]
  subst hr
  constructor
  · intro a ha
    simp only [assemble] at ha
    rcases List.mem_map.mp ha with ⟨v, _, hv⟩
    rw [← hv]
    rfl
  · simp only [assemble]
    rw [List.length_map, hT]

theorem C9_actual_never_null_witness :
    (R1.actual.getD 0 none).isSome = true ∧
    R1.actual.length =
      (DF1.rows.filter (fun row => row.vehicle == 1 && row.Ca.isSome)).length := by
  have hpos : ∀ cfg, E1.cfg = some cfg → 0 < cfg.N_KNOWN := by
    intro cfg hc
    have := Option.some.inj hc
    rw [← this]
    decide
  have h := C9_actual_never_null E1 1 "seq2seq_gpr" (some 1) 5 R1 DF1 rfl hpos rfl
  exact ⟨h.1 (R1.actual.getD 0 none) (by decide), h.2⟩

/-- C4: for every successful `run_forecast` call, `current_ca` is the actual
capacity at index `n_known - 1`, `degradation_ah` equals exactly
`current_ca - last_predicted_ca`, `degradation_pct` equals
`degradation_ah / current_ca * 100` when `current_ca > 0` and is null
otherwise, and `last_predicted_ca` is the last non-null predicted value,
falling back to the last actual value when the predicted window is empty. -/
theorem C4_degradation_metrics (env : Env) (vehicle : ℤ) (model : String)
    (n_known : Option ℤ) (max_h : ℤ) (r : ForecastResult)
    (hpos : ∀ cfg, env.cfg = some cfg → 0 < cfg.N_KNOWN)
    (h : run_forecast env vehicle model n_known max_h = .ok r) :
    r.actual.getD (r.n_known - 1).toNat none = some r.current_ca ∧
    r.degradation_ah = r.current_ca - r.last_predicted_ca ∧
    (r.degradation_pct =
      if 0 < r.current_ca then some (r.degradation_ah / r.current_ca * 100)
      else none) ∧
    (r.predicted.filterMap id ≠ [] →
      (r.predicted.filterMap id).getLast? = some r.last_predicted_ca) ∧
    (r.predicted.filterMap id = [] →
      r.actual.getLast? = some (some r.last_predicted_ca)) := by
  obtain ⟨df, uf, nkd, label, t, c, yp, hdf, hcfg, hd, hr⟩ := run_forecast_ok_inv h
  obtain ⟨cfg, df2, hc, hdf2, hufe, hnkd, hcols⟩ := load_cfg_and_artifacts_ok_inv hcfg
  have hn : 0 < nkd := hnkd ▸ hpos cfg hc
  have hnkpos : 0 < resolve_n_known n_known nkd := resolve_n_known_pos hn
  obtain ⟨d, pred, hsl, hc2, hlen, ht2, hpl, hy2⟩ := dispatch_ok_inv (by omega) hd
  have hcnil : c ≠ [] := by
    intro hnil
    rw [hnil] at hlen
    simp at hlen
    omega
  subst hr
  refine ⟨?_, rfl, rfl, ?_, ?_⟩
  · simp only [assemble]
    have hidx : (resolve_n_known n_known nkd - 1).toNat < c.length := by omega
    rw [List.getD_eq_getElem?_getD, List.getElem?_map,
      List.getElem?_eq_getElem hidx]
    unfold pyGetD
    rw [if_pos (by omega), List.getD_eq_getElem?_getD,
      List.getElem?_eq_getElem hidx]
    rfl
  · intro hne
    simp only [assemble] at hne ⊢
    rw [if_neg (by simpa using hne)]
    exact getLast?_of_ne_nil 0 hne
  · intro he
    simp only [assemble] at he ⊢
    rw [if_pos (by simpa using he), List.getLast?_map,
      getLast?_of_ne_nil 0 hcnil]
    rfl

theorem C4_degradation_metrics_witness :
    R1.actual.getD (R1.n_known - 1).toNat none = some R1.current_ca ∧
    R1.degradation_ah = R1.current_ca - R1.last_predicted_ca ∧
    (R1.degradation_pct =
      if 0 < R1.current_ca then some (R1.degradation_ah / R1.current_ca * 100)
      else none) ∧
    (R1.predicted.filterMap id).getLast? = some R1.last_predicted_ca := by
  have hpos : ∀ cfg, E1.cfg = some cfg → 0 < cfg.N_KNOWN := by
    intro cfg hc
    have := Option.some.inj hc
    rw [← this]
    decide
  have h := C4_degradation_metrics E1 1 "seq2seq_gpr" (some 1) 5 R1 hpos rfl
  exact ⟨h.1, h.2.1, h.2.2.1, h.2.2.2.1 (by decide)⟩

theorem assemble_all_none (vehicle : ℤ) (model label : String) (n max_h : ℤ)
    (t : List ℕ) (c : List ℚ) (hc : c ≠ []) (yp : List (Option ℚ))
    (hyp : ∀ p ∈ yp, p = none) :
    (∀ p ∈ (assemble vehicle model label n max_h t c yp).predicted, p = none) ∧
    (assemble vehicle model label n max_h t c yp).mae = none ∧
    (assemble vehicle model label n max_h t c yp).rmse = none ∧
    (assemble vehicle model label n max_h t c yp).actual.getLast? =
      some (some (assemble vehicle model label n max_h t c yp).last_predicted_ca) := by
  have hnn : yp.filterMap id = [] := filterMap_id_of_all_none hyp
  refine ⟨?_, ?_, ?_, ?_⟩
  · simpa only [assemble] using hyp
  · simp [assemble, hnn]
  · simp [assemble, hnn]
  · simp only [assemble, hnn]
    rw [List.getLast?_map, getLast?_of_ne_nil 0 hc]
    simp

/-- C10: `run_forecast` does not validate that the horizon is positive: with
an otherwise valid vehicle, configuration and model key but `max_h ≤ 0`, the
effective horizon is 0 and the call succeeds, returning an entirely-null
`predicted`, null `mae` and `rmse`, and `last_predicted_ca` equal to the
final actual value, instead of raising any error. -/
theorem C10_nonpositive_horizon (env : Env) (vehicle : ℤ) (model : String)
    (n max_h : ℤ) (df : Df) (uf : List String) (nkd : ℤ) (d : List FeatRow)
    (hdf : env.feat_df = some df)
    (hcfg : load_cfg_and_artifacts env = .ok (uf, nkd))
    (hm : model = "seq2seq_gpr" ∨ model = "svr" ∨ model = "gpr")
    (hn : 0 < n)
    (hs : build_vehicle_slice df vehicle uf = .ok d)
    (hlen : n < ((sliceCaps d).length : ℤ))
    (hmh : max_h ≤ 0) :
    ∃ r, run_forecast env vehicle model (some n) max_h = .ok r ∧
      (∀ p ∈ r.predicted, p = none) ∧ r.mae = none ∧ r.rmse = none ∧
      r.actual.getLast? = some (some r.last_predicted_ca) := by
  have hres : resolve_n_known (some n) nkd = n := by
    unfold resolve_n_known
    simp only []
    rw [if_neg (by omega)]
  have hH : (min max_h (((sliceCaps d).length : ℤ) - n)).toNat = 0 := by omega
  have hcne : sliceCaps d ≠ [] := by
    have h0 : 0 < (sliceCaps d).length := by omega
    exact List.length_pos.mp h0
  have hmask : ∀ p ∈ maskPattern n.toNat [] (sliceCaps d).length, p = none :=
    maskPattern_nil_mem n.toNat (sliceCaps d).length
  rcases hm with rfl | rfl | rfl
  · have hseq : forecast_seq2seq_gpr df vehicle n max_h uf env.arts =
        .ok (List.range' 1 (sliceCaps d).length, sliceCaps d,
          maskPattern n.toNat [] (sliceCaps d).length) := by
      unfold forecast_seq2seq_gpr
      rw [hs]
      simp only []
      rw [if_neg (by omega), hH]
      rfl
    have hrun : run_forecast env vehicle "seq2seq_gpr" (some n) max_h =
        .ok (assemble vehicle "seq2seq_gpr" "Seq2Seq-I + GPR-I" n max_h
          (List.range' 1 (sliceCaps d).length) (sliceCaps d)
          (maskPattern n.toNat [] (sliceCaps d).length)) := by
      unfold run_forecast run_forecast_ev
      rw [hdf, hcfg]
      simp only []
      rw [hres]
      unfold dispatch
      rw [if_pos (show ("seq2seq_gpr" == "seq2seq_gpr") = true from rfl), hseq]
      rfl
    have hprops := assemble_all_none vehicle "seq2seq_gpr" "Seq2Seq-I + GPR-I"
      n max_h (List.range' 1 (sliceCaps d).length) (sliceCaps d) hcne
      (maskPattern n.toNat [] (sliceCaps d).length) hmask
    exact ⟨_, hrun, hprops.1, hprops.2.1, hprops.2.2.1, hprops.2.2.2⟩
  · obtain ⟨b, hb⟩ := get_or_train_static_ok env df uf (Or.inl rfl)
    have hstat : predict_static_curve df vehicle n max_h uf b =
        .ok (List.range' 1 (sliceCaps d).length, sliceCaps d,
          maskPattern n.toNat [] (sliceCaps d).length) := by
      unfold predict_static_curve
      rw [hs]
      simp only []
      rw [if_neg (by omega), hH]
      rfl
    have hrun : run_forecast env vehicle "svr" (some n) max_h =
        .ok (assemble vehicle "svr" ("svr".toUpper) n max_h
          (List.range' 1 (sliceCaps d).length) (sliceCaps d)
          (maskPattern n.toNat [] (sliceCaps d).length)) := by
      unfold run_forecast run_forecast_ev
      rw [hdf, hcfg]
      simp only []
      rw [hres]
      unfold dispatch
      rw [if_neg (show ¬(("svr" == "seq2seq_gpr") = true) from by decide),
        if_pos (show (("svr" == "svr") || ("svr" == "gpr")) = true from rfl), hb]
      simp only []
      rw [hstat]
      rfl
    have hprops := assemble_all_none vehicle "svr" ("svr".toUpper)
      n max_h (List.range' 1 (sliceCaps d).length) (sliceCaps d) hcne
      (maskPattern n.toNat [] (sliceCaps d).length) hmask
    exact ⟨_, hrun, hprops.1, hprops.2.1, hprops.2.2.1, hprops.2.2.2⟩
  · obtain ⟨b, hb⟩ := get_or_train_static_ok env df uf (Or.inr rfl)
    have hstat : predict_static_curve df vehicle n max_h uf b =
        .ok (List.range' 1 (sliceCaps d).length, sliceCaps d,
          maskPattern n.toNat [] (sliceCaps d).length) := by
      unfold predict_static_curve
      rw [hs]
      simp only []
      rw [if_neg (by omega), hH]
      rfl
    have hrun : run_forecast env vehicle "gpr" (some n) max_h =
        .ok (assemble vehicle "gpr" ("gpr".toUpper) n max_h
          (List.range' 1 (sliceCaps d).length) (sliceCaps d)
          (maskPattern n.toNat [] (sliceCaps d).length)) := by
      unfold run_forecast run_forecast_ev
      rw [hdf, hcfg]
      simp only []
      rw [hres]
      unfold dispatch
      rw [if_neg (show ¬(("gpr" == "seq2seq_gpr") = true) from by decide),
        if_pos (show (("gpr" == "svr") || ("gpr" == "gpr")) = true from rfl), hb]
      simp only []
      rw [hstat]
      rfl
    have hprops := assemble_all_none vehicle "gpr" ("gpr".toUpper)
      n max_h (List.range' 1 (sliceCaps d).length) (sliceCaps d) hcne
      (maskPattern n.toNat [] (sliceCaps d).length) hmask
    exact ⟨_, hrun, hprops.1, hprops.2.1, hprops.2.2.1, hprops.2.2.2⟩

theorem C10_nonpositive_horizon_witness :
    run_forecast E1 1 "gpr" (some 1) 0 = .ok R10 ∧
    R10.mae = none ∧ R10.rmse = none ∧
    R10.actual.getLast? = some (some R10.last_predicted_ca) := by
  obtain ⟨r, hrun, hp, hmae, hrmse, hlast⟩ :=
    C10_nonpositive_horizon E1 1 "gpr" 1 0 DF1 UF1 6 D1 rfl rfl
      (Or.inr (Or.inr rfl)) (by decide) rfl (by decide) (by decide)
  have hR : R10 = r := by
    unfold R10
    rw [hrun]
    rfl
  rw [hR]
  exact ⟨hrun, hmae, hrmse, hlast⟩

/-- C2 as stated is false on the code: with the feature table and
configuration present, `run_forecast` on the unknown key `"lstm"` does fail
with `UnknownModel`, but only after the feature table and the configuration
file have been loaded — the artifact-access trace at the failure is not
empty (it contains the feature-table load). -/
theorem C2_counterexample :
    (run_forecast_ev E1 7 "lstm" none 5).2 = .error .unknownModel ∧
    (run_forecast_ev E1 7 "lstm" none 5).1 ≠ [] ∧
    Ev.featTable ∈ (run_forecast_ev E1 7 "lstm" none 5).1 := by
  refine ⟨rfl, by decide, by decide⟩

/-- C2 (amended): for every call whose model key is outside
{seq2seq_gpr, gpr, svr}, once the feature table and the configuration have
been loaded and validated the call fails with `UnknownModel`, and the
artifact-access trace is exactly the feature-table and configuration loads —
no model or scaler file (seq2seq, residual GPR, scalers, static bundle) is
touched or loaded. -/
theorem C2_unknown_model (env : Env) (vehicle : ℤ) (model : String)
    (n_known : Option ℤ) (max_h : ℤ) (df : Df) (uf : List String) (nkd : ℤ)
    (hdf : env.feat_df = some df)
    (hcfg : load_cfg_and_artifacts env = .ok (uf, nkd))
    (h1 : model ≠ "seq2seq_gpr") (h2 : model ≠ "svr") (h3 : model ≠ "gpr") :
    run_forecast_ev env vehicle model n_known max_h =
      ([Ev.featTable, Ev.config], .error .unknownModel) := by
  have hb1 : (model == "seq2seq_gpr") = false := by
    rw [beq_eq_false_iff_ne]
    exact h1
  have hb2 : ((model == "svr") || (model == "gpr")) = false := by
    rw [Bool.or_eq_false_iff, beq_eq_false_iff_ne, beq_eq_false_iff_ne]
    exact ⟨h2, h3⟩
  unfold run_forecast_ev
  rw [hdf, hcfg]
  simp only []
  unfold dispatch
  simp only [hb1, hb2, Bool.false_eq_true, if_false]
  rfl

theorem C2_unknown_model_witness :
    run_forecast_ev E1 7 "lstm" none 5 =
      ([Ev.featTable, Ev.config], .error .unknownModel) :=
  C2_unknown_model E1 7 "lstm" none 5 DF1 UF1 6 rfl rfl (by decide) (by decide)
    (by decide)

/-- C3: in the hybrid forecaster, the prediction window of a successful run
is produced by the rolling sequence `pred` (one `stepPredict` output per
step), where `stepPredict` builds its model input window from the last
`n_known` entries of the growing capacity window as column 0 concatenated
with the feature rows `X[k-n_known : k]`, and the capacity window at offset
`i` is exactly `c.take n_known ++ pred.take i` — the known capacities
extended by all previously predicted values, so later steps consume earlier
predictions in place of ground truth. -/
theorem C3_autoregressive_window {df : Df} {vehicle : ℤ} {n_known max_h : ℤ}
    {uf : List String} {A : Artifacts} {t : List ℕ} {c : List ℚ}
    {yp : List (Option ℚ)}
    (h : forecast_seq2seq_gpr df vehicle n_known max_h uf A = .ok (t, c, yp)) :
    ∃ d pred, build_vehicle_slice df vehicle uf = .ok d ∧ c = sliceCaps d ∧
      pred = rollN A (sliceX uf d) (sliceMons d) (sliceTmax d) (sliceTmin d)
        n_known.toNat (c.take n_known.toNat) n_known.toNat
        ((min max_h ((c.length : ℤ) - n_known)).toNat) ∧
      pred.length = (min max_h ((c.length : ℤ) - n_known)).toNat ∧
      yp = maskPattern n_known.toNat pred c.length ∧
      ∀ i : ℕ, i < pred.length →
        pred.getD i 0 =
          stepPredict A (sliceX uf d) (sliceMons d) (sliceTmax d) (sliceTmin d)
            n_known.toNat (c.take n_known.toNat ++ pred.take i)
            (n_known.toNat + i) := by
  obtain ⟨d, hs, hc, hlen, ht, hy⟩ := forecast_seq2seq_gpr_ok_inv h
  subst hc
  refine ⟨d, _, hs, rfl, rfl, rollN_length _ _ _ _ _ _ _ _ _, hy, ?_⟩
  intro i hi
  rw [rollN_length] at hi
  exact rollN_getD A (sliceX uf d) (sliceMons d) (sliceTmax d) (sliceTmin d)
    n_known.toNat _ _ _ i hi

theorem C3_autoregressive_window_witness :
    PRED3.length = 2 ∧
    PRED3.getD 1 0 = stepPredict A0 (sliceX UF1 D1) (sliceMons D1) (sliceTmax D1)
      (sliceTmin D1) 1 (T3.2.1.take 1 ++ PRED3.take 1) (1 + 1) := by
  obtain ⟨d, pred, hs, hc, hpred, hl, hy, hstep⟩ := C3_autoregressive_window
    (show forecast_seq2seq_gpr DF1 1 1 5 UF1 A0 = .ok (T3.1, T3.2.1, T3.2.2) from rfl)
  have hd : D1 = d :=
    Except.ok.inj ((show build_vehicle_slice DF1 1 UF1 = .ok D1 from rfl).symm.trans hs)
  subst hd
  have hp : pred = PRED3 := hpred
  subst hp
  exact ⟨rfl, hstep 1 (by decide)⟩

/-- C5 as universally stated is false on the code: a vehicle whose only row
has a missing capacity has capacity-non-null row count 0, which is at most
`n_known`, yet both forecasters fail with `VehicleNotFound` (the empty-slice
check fires first), not `InsufficientHistory`. -/
theorem C5_counterexample :
    forecast_seq2seq_gpr DF5 1 6 5 UF1 A0 = .error .vehicleNotFound ∧
    predict_static_curve DF5 1 6 5 UF1 B0 = .error .vehicleNotFound ∧
    Err.vehicleNotFound ≠ Err.insufficientHistory :=
  ⟨rfl, rfl, by decide⟩

/-- C5 (amended): for every vehicle whose slice extraction succeeds (at least
one capacity-non-null row, feature columns present) and whose
capacity-non-null row count is at most `n_known`, both the hybrid forecaster
and the static baseline forecaster fail with `InsufficientHistory`, and no
partial forecast triple is returned; a vehicle with zero capacity-non-null
rows fails with `VehicleNotFound` instead. -/
theorem C5_insufficient_history (df : Df) (vehicle : ℤ) (n_known max_h : ℤ)
    (uf : List String) (A : Artifacts) (bundle : StaticBundle) (d : List FeatRow)
    (hs : build_vehicle_slice df vehicle uf = .ok d)
    (hle : ((sliceCaps d).length : ℤ) ≤ n_known) :
    forecast_seq2seq_gpr df vehicle n_known max_h uf A =
      .error .insufficientHistory ∧
    predict_static_curve df vehicle n_known max_h uf bundle =
      .error .insufficientHistory := by
  constructor
  · unfold forecast_seq2seq_gpr
    rw [hs]
    simp only []
    rw [if_pos hle]
  · unfold predict_static_curve
    rw [hs]
    simp only []
    rw [if_pos hle]

theorem C5_insufficient_history_witness :
    forecast_seq2seq_gpr DF1 1 5 7 UF1 A0 = .error .insufficientHistory ∧
    predict_static_curve DF1 1 5 7 UF1 B0 = .error .insufficientHistory :=
  C5_insufficient_history DF1 1 5 7 UF1 A0 B0 D1 rfl (by decide)

/-- C6: the static baselines predict each forecast index from that month's
own (scaled) feature row only: two runs with the same bundle, same capacity
vector and feature matrices that agree everywhere except index `j` produce
identical predictions at every index other than `j` — no prediction depends
on any prior prediction. -/
theorem C6_static_pointwise (df df' : Df) (vehicle : ℤ) (n_known max_h : ℤ)
    (uf : List String) (bundle : StaticBundle)
    (t t' : List ℕ) (c c' : List ℚ) (yp yp' : List (Option ℚ))
    (d d' : List FeatRow) (j : ℕ)
    (h : predict_static_curve df vehicle n_known max_h uf bundle = .ok (t, c, yp))
    (h' : predict_static_curve df' vehicle n_known max_h uf bundle = .ok (t', c', yp'))
    (hsd : build_vehicle_slice df vehicle uf = .ok d)
    (hsd' : build_vehicle_slice df' vehicle uf = .ok d')
    (hcc : c = c')
    (hX : ∀ i : ℕ, i ≠ j → (sliceX uf d)[i]? = (sliceX uf d')[i]?) :
    ∀ i : ℕ, i ≠ j → yp.getD i none = yp'.getD i none := by
  obtain ⟨d0, hs0, hc0, hlen0, ht0, hy0⟩ := predict_static_curve_ok_inv h
  obtain ⟨d1, hs1, hc1, hlen1, ht1, hy1⟩ := predict_static_curve_ok_inv h'
  have hd0 : d0 = d := Except.ok.inj (hs0.symm.trans hsd)
  have hd1 : d1 = d' := Except.ok.inj (hs1.symm.trans hsd')
  subst hd0
  subst hd1
  subst hc0
  subst hc1
  subst hy0
  subst hy1
  intro i hij
  have hTT : (sliceCaps d0).length = (sliceCaps d1).length := by rw [hcc]
  have hHH : (min max_h (((sliceCaps d1).length : ℤ) - n_known)).toNat =
      (min max_h (((sliceCaps d0).length : ℤ) - n_known)).toNat := by rw [hTT]
  by_cases hiT : i < (sliceCaps d0).length
  · rw [maskPattern_getD _ _ _ i hiT, maskPattern_getD _ _ _ i (hTT ▸ hiT)]
    by_cases hnk : n_known.toNat ≤ i
    · rw [if_pos hnk, if_pos hnk]
      rw [List.getElem?_map, List.getElem?_map, List.getElem?_take,
        List.getElem?_take, hHH]
      by_cases hH : i - n_known.toNat <
          (min max_h (((sliceCaps d0).length : ℤ) - n_known)).toNat
      · rw [if_pos hH, if_pos hH, List.getElem?_drop, List.getElem?_drop]
        have hidx : n_known.toNat + (i - n_known.toNat) = i := by omega
        rw [hidx, hX i hij]
      · rw [if_neg hH, if_neg hH]
    · rw [if_neg hnk, if_neg hnk]
  · rw [List.getD_eq_getElem?_getD, List.getD_eq_getElem?_getD,
      List.getElem?_eq_none (by rw [maskPattern_length]; omega),
      List.getElem?_eq_none (by rw [maskPattern_length]; omega)]

theorem C6_static_pointwise_witness :
    T6.2.2.getD 1 none = T6b.2.2.getD 1 none := by
  have hX : ∀ i : ℕ, i ≠ 2 → (sliceX UF1 D1)[i]? = (sliceX UF1 D1b)[i]? := by
    intro i hij
    by_cases hi : i < 3
    · interval_cases i
      · rfl
      · rfl
      · exact absurd rfl hij
    · rw [List.getElem?_eq_none
        (by simp only [show (sliceX UF1 D1).length = 3 from rfl]; omega),
        List.getElem?_eq_none
        (by simp only [show (sliceX UF1 D1b).length = 3 from rfl]; omega)]
  exact C6_static_pointwise DF1 DF1b 1 1 5 UF1 B0 T6.1 T6b.1 T6.2.1 T6b.2.1
    T6.2.2 T6b.2.2 D1 D1b 2 rfl rfl rfl rfl rfl hX 1 (by decide)
